import Mathlib

/-!
Verification of the labelme `Canvas` widget (`src/labelme/widgets/canvas.py`).

The Python code is shallowly embedded: coordinates are rationals (the source
uses floats only for ordinary arithmetic and comparisons, with no rounding in
the modelled paths), Python lists are Lean lists, and the mutable canvas state
is passed explicitly.  Collaborators that live outside `src/` (Qt, the
segmentation oracle, `polygon_from_mask`, `functools.lru_cache`, methods of
`Shape`) are either parameters of the embedded functions or are modelled from
the specification, as flagged in their doc comments.
-/

namespace Labelme

/-- A shape as the undo-history and move models need it: its vertex list and
its `selected` presentation flag (`Shape.points`, `Shape.selected`). -/
structure HShape where
  points : List (ℚ × ℚ)
  selected : Bool
deriving DecidableEq, Repr

/-- The fields of `Canvas` that the undo-history operations touch:
`self.shapes`, `self.shapesBackups`, `self.selectedShapes`,
`self.num_backups`. -/
structure CanvasHist where
  shapes : List HShape
  shapesBackups : List (List HShape)
  selectedShapes : List HShape
  num_backups : Nat
deriving DecidableEq, Repr

/-- `Canvas.storeShapes`: deep-copies the current shape list; when the history
is longer than `num_backups` it is first sliced to its last
`num_backups + 1` entries (`self.shapesBackups[-self.num_backups - 1:]`);
the fresh snapshot is then appended.  `Shape.copy()` is the identity in this
pure model. -/
def storeShapes (c : CanvasHist) : CanvasHist :=
  let shapesBackup := c.shapes.map (fun s => s)
  let trimmed :=
    if c.shapesBackups.length > c.num_backups then
      c.shapesBackups.drop (c.shapesBackups.length - (c.num_backups + 1))
    else c.shapesBackups
  { c with shapesBackups := trimmed ++ [shapesBackup] }

/-- `Canvas.isShapeRestorable`: false iff fewer than two history entries. -/
def isShapeRestorable (c : CanvasHist) : Bool :=
  !(c.shapesBackups.length < 2)

/-- Clearing a shape's selection flag (`shape.selected = False`). -/
def deselect (s : HShape) : HShape := { s with selected := false }

/-- `Canvas.restoreShape`: no-op unless restorable; otherwise pops the latest
history entry, pops the next one and installs it as the shape set, empties
`selectedShapes` and clears every restored shape's `selected` flag. -/
def restoreShape (c : CanvasHist) : CanvasHist :=
  if !(isShapeRestorable c) then c
  else
    let b1 := c.shapesBackups.dropLast
    match b1.getLast? with
    | none => c
    | some shapesBackup =>
        { c with
          shapes := shapesBackup.map deselect
          shapesBackups := b1.dropLast
          selectedShapes := [] }

/-- Repeatedly: set `self.shapes` to the next snapshot and call
`storeShapes`, as the application does after each semantic edit. -/
def pushSnaps : CanvasHist → List (List HShape) → CanvasHist
  | c, [] => c
  | c, s :: rest => pushSnaps (storeShapes { c with shapes := s }) rest

/-- A one-shape snapshot distinguishable by `k`. -/
def snapK (k : Nat) : List HShape := [⟨[((k : ℚ), 0)], false⟩]

/-- A canvas with the default `num_backups=10` and empty history. -/
def emptyCanvas : CanvasHist :=
  { shapes := [], shapesBackups := [], selectedShapes := [], num_backups := 10 }

/-- Twelve pairwise distinct snapshots. -/
def snaps12 : List (List HShape) := (List.range 12).map snapK

/-- A concrete canvas with exactly two history entries, used by witnesses. -/
def canvasTwoBackups : CanvasHist :=
  { shapes := snapK 1
    shapesBackups := [snapK 0, [⟨[(1, 0)], true⟩]]
    selectedShapes := [⟨[(1, 0)], true⟩]
    num_backups := 10 }

/-- `Canvas.outOfPixmap`: a point is out of the pixmap unless
`0 <= x <= w - 1` and `0 <= y <= h - 1`. -/
def outOfPixmap (w h : ℚ) (p : ℚ × ℚ) : Bool :=
  !(decide (0 ≤ p.1 ∧ p.1 ≤ w - 1 ∧ 0 ≤ p.2 ∧ p.2 ≤ h - 1))

/-- Modelled from the spec: `Shape.moveBy(delta)` (in `shape.py`, outside
`src/`) translates all vertices by the delta. -/
def moveBy (dp : ℚ × ℚ) (s : HShape) : HShape :=
  { s with points := s.points.map (fun p => (p.1 + dp.1, p.2 + dp.2)) }

/-- The fields of `Canvas` read by `boundedMoveShapes`: the pixmap size, the
two selection offsets set by `calculateOffsets` (top-left and bottom-right
corner of the selection's combined bounding box relative to the cursor), and
`prevPoint`, the cursor position at which the selection was last placed. -/
structure MoveState where
  w : ℚ
  h : ℚ
  off1 : ℚ × ℚ
  off2 : ℚ × ℚ
  prevPoint : ℚ × ℚ
deriving DecidableEq, Repr

/-- The clamped target position computed by `Canvas.boundedMoveShapes`:
if `pos + offsets[0]` leaves the pixmap, `pos` is pushed right/down by the
negative overhang; if `pos + offsets[1]` then leaves the pixmap, `pos` is
pushed left/up by `min(0, width - o2.x)` and `min(0, height - o2.y)`. -/
def clampPos (st : MoveState) (pos0 : ℚ × ℚ) : ℚ × ℚ :=
  let o1 := (pos0.1 + st.off1.1, pos0.2 + st.off1.2)
  let pos1 :=
    if outOfPixmap st.w st.h o1 then
      (pos0.1 - min 0 o1.1, pos0.2 - min 0 o1.2)
    else pos0
  let o2 := (pos1.1 + st.off2.1, pos1.2 + st.off2.2)
  if outOfPixmap st.w st.h o2 then
    (pos1.1 + min 0 (st.w - o2.1), pos1.2 + min 0 (st.h - o2.2))
  else pos1

/-- `Canvas.boundedMoveShapes(shapes, pos)`: returns `False` immediately when
the cursor position is out of the pixmap; otherwise clamps the position,
and when the resulting delta from `prevPoint` is nonzero moves every shape by
it, updates `prevPoint` and returns `True`.  The result is the new shape
list, the new state and the returned boolean. -/
def boundedMoveShapes (st : MoveState) (shapes : List HShape) (pos0 : ℚ × ℚ) :
    List HShape × MoveState × Bool :=
  if outOfPixmap st.w st.h pos0 then (shapes, st, false)
  else
    let pos := clampPos st pos0
    let dp := (pos.1 - st.prevPoint.1, pos.2 - st.prevPoint.2)
    if dp ≠ ((0 : ℚ), (0 : ℚ)) then
      (shapes.map (moveBy dp), { st with prevPoint := pos }, true)
    else (shapes, st, false)

/-- Concrete move state for the C3 counterexample: 10x10 pixmap, selection
bounding box `[0,2] x [0,0]` relative to `prevPoint = (0,0)`. -/
def stC3 : MoveState :=
  { w := 10, h := 10, off1 := (0, 0), off2 := (2, 0), prevPoint := (0, 0) }

/-- The selection matching `stC3`. -/
def shapesC3 : List HShape := [⟨[(0, 0), (2, 0)], false⟩]

/-- Concrete move state for the C4 counterexample: 10x10 pixmap, selection
bounding box `[4,6] x [4,6]`, cursor last at `(5,5)`. -/
def stC4 : MoveState :=
  { w := 10, h := 10, off1 := (-1, -1), off2 := (1, 1), prevPoint := (5, 5) }

/-- The selection matching `stC4`. -/
def shapesC4 : List HShape := [⟨[(4, 4), (6, 6)], false⟩]

/-- One shape as the hover branch of `Canvas.mouseMoveEvent` observes it:
its visibility (`Canvas.isVisible`), the outcomes of the two tolerance
queries `shape.nearestVertex(pos, epsilon)` and
`shape.nearestEdge(pos, epsilon)`, whether `shape.canAddPoint()`, and whether
`shape.containsPoint(pos)`.  The geometric queries themselves live in
`shape.py`, outside `src/`, so they enter the model as data. -/
structure HoverShape where
  visible : Bool
  vertexHit : Option Nat
  edgeHit : Option Nat
  canAddPt : Bool
  containsPt : Bool
deriving DecidableEq, Repr

/-- Which highlight the hover branch sets on the shape it stops at. -/
inductive HKind where
  | vertex : Nat → HKind
  | edge : Nat → HKind
  | body : HKind
deriving DecidableEq, Repr

/-- The per-shape cascade of the hover branch of `Canvas.mouseMoveEvent`:
a vertex within tolerance wins, else an edge within tolerance on a shape
that allows point insertion, else body containment; otherwise the shape
does not match. -/
def hitTest (s : HoverShape) : Option HKind :=
  match s.vertexHit with
  | some i => some (HKind.vertex i)
  | none =>
    match s.edgeHit, s.canAddPt with
    | some i, true => some (HKind.edge i)
    | _, _ => if s.containsPt then some HKind.body else none

/-- The iteration order of the hover branch:
`reversed([s for s in self.shapes if self.isVisible(s)])`, with each shape
paired with its index in `self.shapes`. -/
def visList (shapes : List HoverShape) : List (Nat × HoverShape) :=
  (shapes.enum.filter (fun p => p.2.visible)).reverse

/-- The `for ... break / else` loop of the hover branch: the first shape with
a successful test determines the highlight and stops the search. -/
def hoverLoop : List (Nat × HoverShape) → Option (Nat × HKind)
  | [] => none
  | p :: rest =>
    match hitTest p.2 with
    | some k => some (p.1, k)
    | none => hoverLoop rest

/-- The hover branch of `Canvas.mouseMoveEvent` (pointer move, no buttons,
EDIT mode): `none` models the `else` arm, which calls `unHighlight` and
clears all highlight state. -/
def hoverHighlight (shapes : List HoverShape) : Option (Nat × HKind) :=
  hoverLoop (visList shapes)

/-- The create modes of the canvas (`Canvas.createMode`). -/
inductive CreateMode where
  | polygon | rectangle | circle | line | linestrip | pointMode
  | ai_polygon | ai_mask
deriving DecidableEq, Repr

/-- `Canvas.CREATE` and `Canvas.EDIT`. -/
inductive CanvasMode where
  | CREATE | EDIT
deriving DecidableEq, Repr

/-- The fields of `Canvas` that the key-press handling of an in-progress
drawing reads and writes: the mode, the create mode, the in-progress shape
(`self.current`, as its vertex list), the snapping flag and the finalized
shape list. -/
structure DrawState where
  mode : CanvasMode
  createMode : CreateMode
  current : Option (List (ℚ × ℚ))
  snapping : Bool
  shapes : List (List (ℚ × ℚ))
deriving DecidableEq, Repr

/-- `Canvas.drawing()`. -/
def drawing (st : DrawState) : Bool := st.mode = CanvasMode.CREATE

/-- Python truthiness of `self.current`: a `Shape` is truthy iff nonempty,
and `None` is falsy. -/
def currentTruthy (st : DrawState) : Bool :=
  match st.current with
  | some pts => !pts.isEmpty
  | none => false

/-- `Canvas.canCloseShape`: drawing, and either the in-progress shape has
more than two points or the create mode is an AI mode. -/
def canCloseShape (st : DrawState) : Bool :=
  drawing st &&
    ((match st.current with
      | some pts => decide (2 < pts.length)
      | none => false)
     || (st.createMode = CreateMode.ai_polygon
         || st.createMode = CreateMode.ai_mask))

/-- `Canvas.finalise` restricted to the fields of `DrawState`: closes the
current shape, appends it to the shape list and clears `self.current`
(the source asserts `self.current` is set; the `none` arm is unreachable). -/
def finaliseD (st : DrawState) : DrawState :=
  match st.current with
  | none => st
  | some pts => { st with shapes := st.shapes ++ [pts], current := none }

/-- The keys dispatched by the drawing branch of `Canvas.keyPressEvent`. -/
inductive DrawKey where
  | escape | enter | other
deriving DecidableEq, Repr

/-- The `self.drawing()` branch of `Canvas.keyPressEvent`: Escape aborts a
truthy in-progress shape, Return finalizes when `canCloseShape()`, and
otherwise a pure Alt modifier disables snapping.  (The EDIT branch, arrow-key
nudging, is outside this model; `altMod` means the modifiers equal Alt.) -/
def keyPressDrawing (st : DrawState) (key : DrawKey) (altMod : Bool) :
    DrawState :=
  if drawing st then
    if key = DrawKey.escape && currentTruthy st then
      { st with current := none }
    else if key = DrawKey.enter && canCloseShape st then
      finaliseD st
    else if altMod then { st with snapping := false }
    else st
  else st

/-- A concrete building state for the C6 witness: polygon mode with a
two-point in-progress shape. -/
def drawStateTwoPts : DrawState :=
  { mode := CanvasMode.CREATE, createMode := CreateMode.polygon
    current := some [(0, 0), (1, 0)], snapping := true, shapes := [] }

/-- A raster mask, as a list of rows of booleans. -/
abbrev Mask := List (List Bool)

/-- The bounding box an oracle annotation may carry
(`osam.types.Annotation.bounding_box`). -/
structure BoundingBox where
  ymin : Nat
  xmin : Nat
  ymax : Nat
  xmax : Nat
deriving DecidableEq, Repr

/-- One oracle annotation: its mask and optional bounding box. -/
structure Annotation where
  mask : Mask
  bounding_box : Option BoundingBox
deriving DecidableEq, Repr

/-- The fields of `Shape` that `_update_shape_with_sam` touches. -/
structure SamShape where
  shape_type : String
  points : List (ℚ × ℚ)
  point_labels : List Nat
  mask : Option Mask
deriving DecidableEq, Repr

/-- Modelled from the spec: `Shape.setShapeRefined` (in `shape.py`, outside
`src/`) replaces the prompt shape's kind, points, point labels and mask with
the refined geometry. -/
def setShapeRefined (s : SamShape) (ty : String) (points : List (ℚ × ℚ))
    (point_labels : List Nat) (mask : Option Mask) : SamShape :=
  { s with shape_type := ty, points := points, point_labels := point_labels,
           mask := mask }

/-- The numpy slice `mask[y1 : y2 + 1, x1 : x2 + 1]`. -/
def cropMask (m : Mask) (y1 y2 x1 x2 : Nat) : Mask :=
  ((m.drop y1).take (y2 + 1 - y1)).map
    (fun row => (row.drop x1).take (x2 + 1 - x1))

/-- `_update_shape_with_sam`: raises (models as `Except.error`) on a
non-AI create mode; returns the shape untouched when the oracle response has
no annotations; in `ai_mask` mode refines to a cropped mask shape using the
annotation's bounding box (or `maskToBbox`, the external
`imgviz.instances.mask_to_bbox`, when absent); in `ai_polygon` mode runs the
external `polygon_from_mask.compute_polygon_from_mask` collaborator and
returns the shape untouched when it yields fewer than two vertices.  The
oracle response and the two collaborators are parameters. -/
def updateShapeWithSam (annotations : List Annotation)
    (maskToBbox : Mask → Nat × Nat × Nat × Nat)
    (polygonFromMask : Mask → List (ℚ × ℚ))
    (shape : SamShape) (createMode : CreateMode) : Except String SamShape :=
  if !(createMode = CreateMode.ai_polygon
       || createMode = CreateMode.ai_mask) then
    Except.error "createMode must be ai_polygon or ai_mask"
  else
    match annotations with
    | [] => Except.ok shape
    | ann :: _ =>
      if createMode = CreateMode.ai_mask then
        match (match ann.bounding_box with
               | none => maskToBbox ann.mask
               | some b => (b.ymin, b.xmin, b.ymax, b.xmax)) with
        | (y1, x1, y2, x2) =>
          Except.ok (setShapeRefined shape "mask"
            [((x1 : ℚ), (y1 : ℚ)), ((x2 : ℚ), (y2 : ℚ))] [1, 1]
            (some (cropMask ann.mask y1 y2 x1 x2)))
      else
        let points := polygonFromMask ann.mask
        if points.length < 2 then Except.ok shape
        else
          Except.ok (setShapeRefined shape "polygon" points
            (List.replicate points.length 1) none)

/-- A concrete prompt shape for the C7 witness. -/
def promptShapeEx : SamShape :=
  { shape_type := "points", points := [(3, 4)], point_labels := [1],
    mask := none }

/-- A concrete mask-to-bbox collaborator for the C7 witness. -/
def bboxEx : Mask → Nat × Nat × Nat × Nat := fun _ => (0, 0, 0, 0)

/-- A concrete degenerate polygon extractor for the C7 witness: every mask
yields a single vertex. -/
def degenerateExtractor : Mask → List (ℚ × ℚ) := fun _ => [(0, 0)]

/-- A pixmap as `_QPixmapForLruCache` sees it: a wrapper object identity and
the raw pixel bytes (`qimage.constBits().asstring(...)`). -/
structure PixWrap where
  objId : Nat
  content : List Nat
deriving DecidableEq, Repr

/-- `_QPixmapForLruCache.__hash__`: hashes only the raw pixel bytes; the
Python `hash` of the byte string is modelled by the byte list itself, which
preserves exactly the content-equality the source relies on and ignores the
wrapper identity. -/
def pixHash (p : PixWrap) : List Nat := p.content

/-- `_QPixmapForLruCache.__eq__`: equal iff the hashes are equal (the source
compares `self.__hash__() == other.__hash__()`). -/
def pixEq (a b : PixWrap) : Bool := decide (pixHash a = pixHash b)

/-- Modelled from the spec: `functools.lru_cache` (standard library, outside
this repository) as the spec describes it, a bounded least-recently-used
cache.  Entries are kept most-recently-used first. -/
structure LruCache (κ ε : Type) where
  entries : List (κ × ε)
deriving Repr

/-- Modelled from the spec: one cached call.  A hit (under the key equality
`eqk`) moves the entry to the front and does not compute; a miss computes,
inserts the new entry at the front and truncates to the capacity.  The
boolean reports whether the underlying computation ran. -/
def lruGet {κ ε : Type} (eqk : κ → κ → Bool) (cap : Nat) (compute : κ → ε)
    (c : LruCache κ ε) (k : κ) : ε × LruCache κ ε × Bool :=
  match c.entries.find? (fun p => eqk p.1 k) with
  | some kv =>
      (kv.2, ⟨kv :: c.entries.filter (fun p => !(eqk p.1 k))⟩, false)
  | none =>
      let v := compute k
      (v, ⟨((k, v) :: c.entries).take cap⟩, true)

/-- The cache key equality induced by `__compute_image_embedding`'s
argument tuple `(sam, pixmap)`: model names compare as strings, pixmaps via
`_QPixmapForLruCache.__eq__`. -/
def embedKeyEq (a b : String × PixWrap) : Bool :=
  (a.1 == b.1) && pixEq a.2 b.2

/-- `_compute_image_embedding` / `__compute_image_embedding`: wraps the
pixmap for content-based hashing and consults the capacity-3 LRU cache;
`embed` stands for the expensive `sam.encode_image` computation. -/
def computeImageEmbedding {ε : Type} (embed : String × PixWrap → ε)
    (cache : LruCache (String × PixWrap) ε) (modelName : String)
    (pix : PixWrap) : ε × LruCache (String × PixWrap) ε × Bool :=
  lruGet embedKeyEq 3 embed cache (modelName, pix)

/-- The image-rectangle corners used by `Canvas.intersectionPoint`, in the
clockwise order of the source. -/
def rectCorners (w h : ℚ) : List (ℚ × ℚ) :=
  [(0, 0), (w - 1, 0), (w - 1, h - 1), (0, h - 1)]

/-- Edge `i` of the image rectangle: the pair of its endpoints
`points[i]` and `points[(i + 1) % 4]`. -/
def rectEdge (w h : ℚ) (i : Nat) : (ℚ × ℚ) × (ℚ × ℚ) :=
  ((rectCorners w h).getD i (0, 0), (rectCorners w h).getD ((i + 1) % 4) (0, 0))

/-- One candidate yielded by `Canvas.intersectingEdges`: the comparison key
`(distance, index)` and the intersection point.  `d2` is the squared
distance from `p2` to the edge midpoint; the source compares true Euclidean
distances, and squaring is strictly monotone on nonnegatives, so the
lexicographic minimum chosen below is the same candidate. -/
structure Cand where
  d2 : ℚ
  i : Nat
  pt : ℚ × ℚ
deriving DecidableEq, Repr

/-- The body of one iteration of `Canvas.intersectingEdges` on the edge from
`e3` to `e4`: a parallel or coincident segment (zero denominator) yields no
candidate, and otherwise the parametric intersection is kept exactly when
both parameters lie in `[0, 1]`. -/
def edgeCandidateCore (p1 p2 e3 e4 : ℚ × ℚ) (i : Nat) : Option Cand :=
  let denom := (e4.2 - e3.2) * (p2.1 - p1.1) - (e4.1 - e3.1) * (p2.2 - p1.2)
  let nua := (e4.1 - e3.1) * (p1.2 - e3.2) - (e4.2 - e3.2) * (p1.1 - e3.1)
  let nub := (p2.1 - p1.1) * (p1.2 - e3.2) - (p2.2 - p1.2) * (p1.1 - e3.1)
  if denom = 0 then none
  else
    let ua := nua / denom
    let ub := nub / denom
    if 0 ≤ ua ∧ ua ≤ 1 ∧ 0 ≤ ub ∧ ub ≤ 1 then
      let x := p1.1 + ua * (p2.1 - p1.1)
      let y := p1.2 + ua * (p2.2 - p1.2)
      let mx := (e3.1 + e4.1) / 2
      let my := (e3.2 + e4.2) / 2
      some ⟨(mx - p2.1) ^ 2 + (my - p2.2) ^ 2, i, (x, y)⟩
    else none

/-- One iteration of `Canvas.intersectingEdges` on edge `i` of `pts`. -/
def edgeCandidate (p1 p2 : ℚ × ℚ) (pts : List (ℚ × ℚ)) (i : Nat) :
    Option Cand :=
  edgeCandidateCore p1 p2 (pts.getD i (0, 0)) (pts.getD ((i + 1) % 4) (0, 0)) i

/-- `Canvas.intersectingEdges`: the candidates yielded for the four edges. -/
def intersectingEdges (p1 p2 : ℚ × ℚ) (pts : List (ℚ × ℚ)) : List Cand :=
  [0, 1, 2, 3].filterMap (edgeCandidate p1 p2 pts)

/-- The strict lexicographic order on `(distance, index)` under which Python
compares the yielded tuples (the point component is never reached since the
indices are pairwise distinct). -/
def candLt (a b : Cand) : Bool :=
  decide (a.d2 < b.d2 ∨ (a.d2 = b.d2 ∧ a.i < b.i))

/-- The running minimum of Python's `min`, keeping the earlier element on
non-strict comparisons. -/
def minCandAux (acc : Cand) : List Cand → Cand
  | [] => acc
  | x :: rest => minCandAux (if candLt x acc then x else acc) rest

/-- Python's `min` over the candidate list; `none` models the `ValueError`
raised on an empty sequence. -/
def minCand : List Cand → Option Cand
  | [] => none
  | c :: rest => some (minCandAux c rest)

/-- `Canvas.intersectionPoint(p1, p2)`: clamps `p1` into the rectangle,
takes the minimal candidate, and when the chosen intersection coincides with
the (clamped) first point snaps along the chosen edge as the source does. -/
def intersectionPoint (w h : ℚ) (p1 p2 : ℚ × ℚ) : Option (ℚ × ℚ) :=
  let pts := rectCorners w h
  let q1 : ℚ × ℚ := (min (max p1.1 0) (w - 1), min (max p1.2 0) (h - 1))
  match minCand (intersectingEdges q1 p2 pts) with
  | none => none
  | some c =>
    let e3 := pts.getD c.i (0, 0)
    let e4 := pts.getD ((c.i + 1) % 4) (0, 0)
    if c.pt = q1 then
      if e3.1 = e4.1 then some (e3.1, min (max 0 p2.2) (max e3.2 e4.2))
      else some (min (max 0 p2.1) (max e3.1 e4.1), e3.2)
    else some c.pt

/-- A point lies on the closed segment from `a` to `b`, parametrically. -/
def onSegment (a b q : ℚ × ℚ) : Prop :=
  ∃ t : ℚ, 0 ≤ t ∧ t ≤ 1 ∧
    q.1 = a.1 + t * (b.1 - a.1) ∧ q.2 = a.2 + t * (b.2 - a.2)

/-- A point lies on edge `i` of the image rectangle. -/
def onRectEdge (w h : ℚ) (i : Nat) (q : ℚ × ℚ) : Prop :=
  onSegment (rectEdge w h i).1 (rectEdge w h i).2 q

/-- Membership in the closed image rectangle `[0, w-1] x [0, h-1]`
(the complement of `Canvas.outOfPixmap`). -/
def insideRect (w h : ℚ) (p : ℚ × ℚ) : Prop :=
  0 ≤ p.1 ∧ p.1 ≤ w - 1 ∧ 0 ≤ p.2 ∧ p.2 ≤ h - 1

/-- The spec's description of the snap case: keep the chosen edge's fixed
coordinate and clamp the outside point's varying coordinate into the edge's
coordinate range. -/
def snapResult (w h : ℚ) (i : Nat) (p2 : ℚ × ℚ) : ℚ × ℚ :=
  let e := rectEdge w h i
  if e.1.1 = e.2.1 then
    (e.1.1, min (max (min e.1.2 e.2.2) p2.2) (max e.1.2 e.2.2))
  else
    (min (max (min e.1.1 e.2.1) p2.1) (max e.1.1 e.2.1), e.1.2)

/-- Two shapes for the C5 witness: the top-most (index 1) has an edge hit
and allows insertion, the bottom one has a vertex hit. -/
def hoverShapesEx : List HoverShape :=
  [⟨true, some 0, none, false, false⟩, ⟨true, none, some 2, true, false⟩]

lemma restoreShape_of_restorable (c : CanvasHist)
    (h : 2 ≤ c.shapesBackups.length) :
    ∃ penult, c.shapesBackups.dropLast.getLast? = some penult ∧
      restoreShape c =
        { c with
          shapes := penult.map deselect
          shapesBackups := c.shapesBackups.dropLast.dropLast
          selectedShapes := [] } := by
  have hne : c.shapesBackups.dropLast ≠ [] := by
    intro hnil
    have hlen := congrArg List.length hnil
    rw [List.length_dropLast] at hlen
    simp at hlen
    omega
  obtain ⟨penult, hp⟩ :=
    Option.isSome_iff_exists.mp (List.getLast?_isSome.mpr hne)
  refine ⟨penult, hp, ?_⟩
  have hok : isShapeRestorable c = true := by
    simp [isShapeRestorable]
    omega
  simp [restoreShape, hok, hp]

/-- Claim C1 counterexample: starting from an empty history, 12 consecutive
`storeShapes` pushes with `num_backups = 10` leave all 12 snapshots in the
history, not the claimed 11; no snapshot is evicted. -/
theorem twelve_pushes_keep_twelve :
    (pushSnaps emptyCanvas snaps12).shapesBackups = snaps12 ∧
    (pushSnaps emptyCanvas snaps12).shapesBackups.length ≠ 11 := by decide

/-- Claim C1 (amended): 12 pushes with `num_backups = 10` from an empty
history retain all 12 snapshots; in general a push leaves at most
`num_backups + 2` history entries, and the entries retained from before the
push are a suffix of the previous history, i.e. its most recent entries. -/
theorem history_cap_amended :
    (pushSnaps emptyCanvas snaps12).shapesBackups = snaps12 ∧
    (∀ c : CanvasHist,
      (storeShapes c).shapesBackups.length ≤ c.num_backups + 2) ∧
    (∀ c : CanvasHist,
      List.IsSuffix (storeShapes c).shapesBackups.dropLast
        c.shapesBackups) := by
  refine ⟨by decide, ?_, ?_⟩
  · intro c
    unfold storeShapes
    dsimp only
    split
    · rename_i hgt
      rw [List.length_append, List.length_drop]
      simp
      omega
    · rename_i hle
      rw [List.length_append]
      simp at hle ⊢
      omega
  · intro c
    unfold storeShapes
    dsimp only
    rw [List.dropLast_concat]
    split
    · exact ⟨_, List.take_append_drop _ _⟩
    · exact List.suffix_refl _

/-- Claim C2: with fewer than two history entries `restoreShape` is a
strict no-op; with at least two it removes the latest entry, then removes
the next (pre-edit) entry and installs it as the shape set (with selection
flags cleared, cf. C10). -/
theorem undo_noop_or_pops (c : CanvasHist) :
    (c.shapesBackups.length < 2 → restoreShape c = c) ∧
    (2 ≤ c.shapesBackups.length →
      ∃ penult, c.shapesBackups.dropLast.getLast? = some penult ∧
        restoreShape c =
          { c with
            shapes := penult.map deselect
            shapesBackups := c.shapesBackups.dropLast.dropLast
            selectedShapes := [] }) := by
  constructor
  · intro h
    simp [restoreShape, isShapeRestorable, h]
  · exact restoreShape_of_restorable c

/-- Claim C2 witness: a concrete canvas with exactly two history entries. -/
theorem undo_noop_or_pops_witness :
    2 ≤ canvasTwoBackups.shapesBackups.length ∧
    restoreShape canvasTwoBackups =
      { canvasTwoBackups with
        shapes := [⟨[(0, 0)], false⟩]
        shapesBackups := []
        selectedShapes := [] } := by
  refine ⟨by decide, ?_⟩
  obtain ⟨penult, hp, hres⟩ :=
    (undo_noop_or_pops canvasTwoBackups).2 (by decide)
  have hv : penult = [⟨[(0, 0)], false⟩] :=
    Option.some.inj (hp.symm.trans (by decide))
  rw [hres, hv]
  decide

/-- Claim C10: after a successful undo the selection is empty and every
restored shape has its `selected` flag cleared. -/
theorem undo_clears_selection (c : CanvasHist)
    (h : 2 ≤ c.shapesBackups.length) :
    (restoreShape c).selectedShapes = [] ∧
    ∀ s ∈ (restoreShape c).shapes, s.selected = false := by
  obtain ⟨penult, -, hres⟩ := restoreShape_of_restorable c h
  rw [hres]
  refine ⟨rfl, ?_⟩
  intro s hs
  simp only [List.mem_map] at hs
  obtain ⟨t, -, ht⟩ := hs
  rw [← ht]
  rfl

/-- Claim C10 witness: the concrete two-entry canvas. -/
theorem undo_clears_selection_witness :
    (restoreShape canvasTwoBackups).selectedShapes = [] ∧
    ∀ s ∈ (restoreShape canvasTwoBackups).shapes, s.selected = false :=
  undo_clears_selection canvasTwoBackups (by decide)

lemma outOfPixmap_false_iff (w h : ℚ) (p : ℚ × ℚ) :
    outOfPixmap w h p = false ↔
      0 ≤ p.1 ∧ p.1 ≤ w - 1 ∧ 0 ≤ p.2 ∧ p.2 ≤ h - 1 := by
  simp [outOfPixmap]

lemma clampPos_bounds (st : MoveState) (pos : ℚ × ℚ)
    (hpos : outOfPixmap st.w st.h pos = false)
    (hwx : st.off2.1 - st.off1.1 ≤ st.w - 1)
    (hwy : st.off2.2 - st.off1.2 ≤ st.h - 1) :
    0 ≤ (clampPos st pos).1 + st.off1.1 ∧
    (clampPos st pos).1 + st.off2.1 ≤ st.w ∧
    0 ≤ (clampPos st pos).2 + st.off1.2 ∧
    (clampPos st pos).2 + st.off2.2 ≤ st.h := by
  obtain ⟨hpa, hpb, hpc, hpd⟩ := (outOfPixmap_false_iff _ _ _).mp hpos
  unfold clampPos
  dsimp only
  split_ifs with hA hB hB
  · dsimp only
    rcases min_cases 0 (pos.1 + st.off1.1) with ⟨ex, lx⟩ | ⟨ex, lx⟩ <;>
      rcases min_cases 0 (pos.2 + st.off1.2) with ⟨ey, ly⟩ | ⟨ey, ly⟩ <;>
      rcases min_cases 0
        (st.w - (pos.1 - min 0 (pos.1 + st.off1.1) + st.off2.1)) with
        ⟨fx, mx⟩ | ⟨fx, mx⟩ <;>
      rcases min_cases 0
        (st.h - (pos.2 - min 0 (pos.2 + st.off1.2) + st.off2.2)) with
        ⟨fy, my⟩ | ⟨fy, my⟩ <;>
      exact ⟨by linarith, by linarith, by linarith, by linarith⟩
  · rw [Bool.not_eq_true, outOfPixmap_false_iff] at hB
    dsimp only at hB ⊢
    obtain ⟨b1, b2, b3, b4⟩ := hB
    rcases min_cases 0 (pos.1 + st.off1.1) with ⟨ex, lx⟩ | ⟨ex, lx⟩ <;>
      rcases min_cases 0 (pos.2 + st.off1.2) with ⟨ey, ly⟩ | ⟨ey, ly⟩ <;>
      exact ⟨by linarith, by linarith, by linarith, by linarith⟩
  · rw [Bool.not_eq_true, outOfPixmap_false_iff] at hA
    dsimp only at hA ⊢
    obtain ⟨a1, a2, a3, a4⟩ := hA
    rcases min_cases 0 (st.w - (pos.1 + st.off2.1)) with ⟨fx, mx⟩ | ⟨fx, mx⟩ <;>
      rcases min_cases 0 (st.h - (pos.2 + st.off2.2)) with ⟨fy, my⟩ | ⟨fy, my⟩ <;>
      exact ⟨by linarith, by linarith, by linarith, by linarith⟩
  · rw [Bool.not_eq_true, outOfPixmap_false_iff] at hA hB
    dsimp only at hA hB ⊢
    obtain ⟨a1, a2, a3, a4⟩ := hA
    obtain ⟨b1, b2, b3, b4⟩ := hB
    exact ⟨by linarith, by linarith, by linarith, by linarith⟩

/-- Claim C3 counterexample: a selection whose bounding box `[0,2] x [0,0]`
lies fully inside the 10x10 image, moved towards the in-bounds position
`(9,0)`, ends with its bounding box right edge at `x = 10`, strictly beyond
`w - 1 = 9`: the translated box does leave `[0, w-1] x [0, h-1]`. -/
theorem bounded_move_escapes_pixmap :
    (0 ≤ stC3.prevPoint.1 + stC3.off1.1 ∧
     stC3.prevPoint.1 + stC3.off2.1 ≤ stC3.w - 1 ∧
     0 ≤ stC3.prevPoint.2 + stC3.off1.2 ∧
     stC3.prevPoint.2 + stC3.off2.2 ≤ stC3.h - 1) ∧
    outOfPixmap stC3.w stC3.h (9, 0) = false ∧
    (boundedMoveShapes stC3 shapesC3 (9, 0)).2.2 = true ∧
    (boundedMoveShapes stC3 shapesC3 (9, 0)).1 =
      [⟨[(8, 0), (10, 0)], false⟩] ∧
    (boundedMoveShapes stC3 shapesC3 (9, 0)).2.1.prevPoint.1 + stC3.off2.1
      = 10 ∧
    ¬((boundedMoveShapes stC3 shapesC3 (9, 0)).2.1.prevPoint.1 + stC3.off2.1
      ≤ stC3.w - 1) := by
  norm_num [boundedMoveShapes, clampPos, outOfPixmap, moveBy, stC3, shapesC3,
    Prod.ext_iff]

/-- Claim C3 (amended): for a selection whose combined bounding box lies
fully inside `[0, w-1] x [0, h-1]`, `boundedMoveShapes` keeps the translated
bounding box inside the one-pixel-larger region `[0, w] x [0, h]`: the
left/top corner is clamped exactly at 0, while the right/bottom corner can
overshoot `w-1`/`h-1` by at most one (the source clamps against `width`
and `height` rather than `width-1`/`height-1`). -/
theorem bounded_move_box_relaxed (st : MoveState) (shapes : List HShape)
    (pos : ℚ × ℚ)
    (h1x : 0 ≤ st.prevPoint.1 + st.off1.1)
    (h2x : st.prevPoint.1 + st.off2.1 ≤ st.w - 1)
    (h1y : 0 ≤ st.prevPoint.2 + st.off1.2)
    (h2y : st.prevPoint.2 + st.off2.2 ≤ st.h - 1)
    (hox : st.off1.1 ≤ st.off2.1) (hoy : st.off1.2 ≤ st.off2.2) :
    0 ≤ (boundedMoveShapes st shapes pos).2.1.prevPoint.1 + st.off1.1 ∧
    (boundedMoveShapes st shapes pos).2.1.prevPoint.1 + st.off1.1 ≤
      (boundedMoveShapes st shapes pos).2.1.prevPoint.1 + st.off2.1 ∧
    (boundedMoveShapes st shapes pos).2.1.prevPoint.1 + st.off2.1 ≤ st.w ∧
    0 ≤ (boundedMoveShapes st shapes pos).2.1.prevPoint.2 + st.off1.2 ∧
    (boundedMoveShapes st shapes pos).2.1.prevPoint.2 + st.off1.2 ≤
      (boundedMoveShapes st shapes pos).2.1.prevPoint.2 + st.off2.2 ∧
    (boundedMoveShapes st shapes pos).2.1.prevPoint.2 + st.off2.2 ≤ st.h := by
  have hcorner :
      0 ≤ (boundedMoveShapes st shapes pos).2.1.prevPoint.1 + st.off1.1 ∧
      (boundedMoveShapes st shapes pos).2.1.prevPoint.1 + st.off2.1 ≤ st.w ∧
      0 ≤ (boundedMoveShapes st shapes pos).2.1.prevPoint.2 + st.off1.2 ∧
      (boundedMoveShapes st shapes pos).2.1.prevPoint.2 + st.off2.2 ≤ st.h := by
    unfold boundedMoveShapes
    dsimp only
    split_ifs with hOut hDp
    · exact ⟨h1x, by linarith, h1y, by linarith⟩
    · have hb := clampPos_bounds st pos (by rwa [Bool.not_eq_true] at hOut)
        (by linarith) (by linarith)
      exact hb
    · exact ⟨h1x, by linarith, h1y, by linarith⟩
  obtain ⟨g1, g2, g3, g4⟩ := hcorner
  exact ⟨g1, by linarith, g2, g3, by linarith, g4⟩

/-- Claim C3 witness for the amended theorem: the concrete `stC3` scenario. -/
theorem bounded_move_box_relaxed_witness :
    0 ≤ (boundedMoveShapes stC3 shapesC3 (9, 0)).2.1.prevPoint.1
        + stC3.off1.1 ∧
    (boundedMoveShapes stC3 shapesC3 (9, 0)).2.1.prevPoint.1 + stC3.off1.1 ≤
      (boundedMoveShapes stC3 shapesC3 (9, 0)).2.1.prevPoint.1 + stC3.off2.1 ∧
    (boundedMoveShapes stC3 shapesC3 (9, 0)).2.1.prevPoint.1 + stC3.off2.1
      ≤ stC3.w ∧
    0 ≤ (boundedMoveShapes stC3 shapesC3 (9, 0)).2.1.prevPoint.2
        + stC3.off1.2 ∧
    (boundedMoveShapes stC3 shapesC3 (9, 0)).2.1.prevPoint.2 + stC3.off1.2 ≤
      (boundedMoveShapes stC3 shapesC3 (9, 0)).2.1.prevPoint.2 + stC3.off2.2 ∧
    (boundedMoveShapes stC3 shapesC3 (9, 0)).2.1.prevPoint.2 + stC3.off2.2
      ≤ stC3.h :=
  bounded_move_box_relaxed stC3 shapesC3 (9, 0) (by norm_num [stC3])
    (by norm_num [stC3]) (by norm_num [stC3]) (by norm_num [stC3])
    (by norm_num [stC3]) (by norm_num [stC3])

/-- Claim C4 counterexample: with the selection bounding box `[4,6] x [4,6]`
inside the 10x10 image and requested cursor position `(20, 5)` (whose raw
application would put the box out of bounds), a nonzero in-bounds
translation exists (for instance `(3, 0)`), yet `boundedMoveShapes` returns
immediately with every shape unmoved, because the cursor position itself is
out of the pixmap. -/
theorem clamp_rejects_outside_target :
    (0 ≤ stC4.prevPoint.1 + stC4.off1.1 ∧
     stC4.prevPoint.1 + stC4.off2.1 ≤ stC4.w - 1 ∧
     0 ≤ stC4.prevPoint.2 + stC4.off1.2 ∧
     stC4.prevPoint.2 + stC4.off2.2 ≤ stC4.h - 1) ∧
    outOfPixmap stC4.w stC4.h ((20 : ℚ) + stC4.off2.1, (5 : ℚ) + stC4.off2.2)
      = true ∧
    (0 ≤ stC4.prevPoint.1 + stC4.off1.1 + 3 ∧
     stC4.prevPoint.1 + stC4.off2.1 + 3 ≤ stC4.w - 1 ∧
     ((3 : ℚ), (0 : ℚ)) ≠ ((0 : ℚ), (0 : ℚ))) ∧
    boundedMoveShapes stC4 shapesC4 (20, 5) = (shapesC4, stC4, false) := by
  norm_num [boundedMoveShapes, clampPos, outOfPixmap, stC4, shapesC4,
    Prod.ext_iff]

/-- Claim C4 (amended): whenever the requested cursor position lies inside
the image, the move is clamped, never rejected: the shapes are translated by
the clamped delta exactly when that delta is nonzero, and `prevPoint` tracks
the clamped position.  Requests whose cursor position is itself outside the
image are rejected outright (see the counterexample). -/
theorem clamp_moves_inside_target (st : MoveState) (shapes : List HShape)
    (pos : ℚ × ℚ) (hpos : outOfPixmap st.w st.h pos = false) :
    ((boundedMoveShapes st shapes pos).2.2 = true ↔
      clampPos st pos ≠ st.prevPoint) ∧
    (clampPos st pos ≠ st.prevPoint →
      (boundedMoveShapes st shapes pos).1 =
        shapes.map (moveBy
          ((clampPos st pos).1 - st.prevPoint.1,
           (clampPos st pos).2 - st.prevPoint.2)) ∧
      (boundedMoveShapes st shapes pos).2.1.prevPoint = clampPos st pos) := by
  have hiff : (((clampPos st pos).1 - st.prevPoint.1,
       (clampPos st pos).2 - st.prevPoint.2) = ((0 : ℚ), (0 : ℚ))) ↔
      clampPos st pos = st.prevPoint := by
    simp [Prod.ext_iff, sub_eq_zero]
  unfold boundedMoveShapes
  dsimp only
  rw [hpos]
  simp only [Bool.false_eq_true, if_false]
  split_ifs with hdp
  · refine ⟨⟨fun _ => (not_congr hiff).mp hdp, fun _ => rfl⟩, fun _ => ⟨rfl, rfl⟩⟩
  · rw [not_not] at hdp
    have hcl : clampPos st pos = st.prevPoint := hiff.mp hdp
    constructor
    · constructor
      · intro hfalse
        exact absurd hfalse (by simp)
      · intro hne
        exact absurd hcl hne
    · intro hne
      exact absurd hcl hne

/-- Claim C4 witness for the amended theorem: inside-image target `(9, 5)`
on the `stC4` selection is clamped (to delta `(4, 0)`) and applied. -/
theorem clamp_moves_inside_target_witness :
    outOfPixmap stC4.w stC4.h (9, 5) = false ∧
    (boundedMoveShapes stC4 shapesC4 (9, 5)).2.2 = true ∧
    (boundedMoveShapes stC4 shapesC4 (9, 5)).1 =
      shapesC4.map (moveBy ((clampPos stC4 (9, 5)).1 - stC4.prevPoint.1,
        (clampPos stC4 (9, 5)).2 - stC4.prevPoint.2)) := by
  have hp : outOfPixmap stC4.w stC4.h (9, 5) = false := by
    norm_num [outOfPixmap, stC4]
  have hne : clampPos stC4 (9, 5) ≠ stC4.prevPoint := by
    norm_num [clampPos, outOfPixmap, stC4, Prod.ext_iff]
  refine ⟨hp, ?_, ?_⟩
  · exact ((clamp_moves_inside_target stC4 shapesC4 (9, 5) hp).1).mpr hne
  · exact ((clamp_moves_inside_target stC4 shapesC4 (9, 5) hp).2 hne).1

lemma hoverLoop_eq_none_iff (l : List (Nat × HoverShape)) :
    hoverLoop l = none ↔ ∀ p ∈ l, hitTest p.2 = none := by
  induction l with
  | nil => simp [hoverLoop]
  | cons p rest ih =>
    cases h : hitTest p.2 <;> simp [hoverLoop, h, ih]

lemma hoverLoop_append_none (pre l : List (Nat × HoverShape))
    (hpre : ∀ q ∈ pre, hitTest q.2 = none) :
    hoverLoop (pre ++ l) = hoverLoop l := by
  induction pre with
  | nil => rfl
  | cons q rest ih =>
    have hq := hpre q (by simp)
    rw [List.cons_append]
    show (match hitTest q.2 with
          | some k => some (q.1, k)
          | none => hoverLoop (rest ++ l)) = hoverLoop l
    rw [hq]
    exact ih (fun x hx => hpre x (by simp [hx]))

/-- Claim C5: the hover recomputation of `Canvas.mouseMoveEvent` scans the
visible shapes top-most first; per shape the vertex test wins over the edge
test (which requires `canAddPoint`), which wins over body containment; the
first shape with any successful test determines the highlight and stops the
scan; when no shape matches, the highlight state is cleared (`none`). -/
theorem hover_first_match (shapes : List HoverShape) :
    (hoverHighlight shapes = none ↔
      ∀ p ∈ visList shapes, hitTest p.2 = none) ∧
    (∀ pre p post, visList shapes = pre ++ p :: post →
      (∀ q ∈ pre, hitTest q.2 = none) →
      ∀ k, hitTest p.2 = some k → hoverHighlight shapes = some (p.1, k)) ∧
    (∀ s : HoverShape,
      (∀ v, hitTest s = some (HKind.vertex v) ↔ s.vertexHit = some v) ∧
      (∀ e, hitTest s = some (HKind.edge e) ↔
        s.vertexHit = none ∧ s.edgeHit = some e ∧ s.canAddPt = true) ∧
      (hitTest s = some HKind.body ↔
        s.vertexHit = none ∧ (s.edgeHit = none ∨ s.canAddPt = false) ∧
          s.containsPt = true)) := by
  refine ⟨hoverLoop_eq_none_iff _, ?_, ?_⟩
  · intro pre p post hsplit hpre k hk
    unfold hoverHighlight
    rw [hsplit, hoverLoop_append_none pre _ hpre]
    simp [hoverLoop, hk]
  · intro s
    refine ⟨fun v => ?_, fun e => ?_, ?_⟩ <;>
      rcases hv : s.vertexHit with - | v0 <;>
      rcases he : s.edgeHit with - | e0 <;>
      cases hc : s.canAddPt <;>
      cases hp : s.containsPt <;>
      simp [hitTest, hv, he, hc, hp]

/-- Claim C5 witness: on `hoverShapesEx` the scan stops at the top-most
shape with its edge highlighted. -/
theorem hover_first_match_witness :
    hoverHighlight hoverShapesEx = some (1, HKind.edge 2) :=
  (hover_first_match hoverShapesEx).2.1 []
    (1, ⟨true, none, some 2, true, false⟩)
    [(0, ⟨true, some 0, none, false, false⟩)] (by decide) (by decide)
    (HKind.edge 2) (by decide)

/-- Claim C6: in CREATE mode with `createMode = polygon`, `canCloseShape`
holds exactly when the in-progress shape has more than two points, and
pressing Enter with at most two points is a strict no-op: the state,
including the in-progress shape, is unchanged and the interaction remains in
building state. -/
theorem polygon_enter_needs_three (st : DrawState) (pts : List (ℚ × ℚ))
    (hmode : st.mode = CanvasMode.CREATE)
    (hcm : st.createMode = CreateMode.polygon)
    (hcur : st.current = some pts) :
    (canCloseShape st = true ↔ 2 < pts.length) ∧
    (pts.length ≤ 2 → keyPressDrawing st DrawKey.enter false = st) := by
  constructor
  · simp [canCloseShape, drawing, hmode, hcm, hcur]
  · intro hle
    have hcc : canCloseShape st = false := by
      simp [canCloseShape, drawing, hmode, hcm, hcur]
      omega
    simp [keyPressDrawing, drawing, hmode, hcc]

/-- Claim C6 witness: Enter on a two-point polygon leaves the state
untouched, and `canCloseShape` is false there. -/
theorem polygon_enter_needs_three_witness :
    (canCloseShape drawStateTwoPts = true ↔
      2 < [((0 : ℚ), (0 : ℚ)), (1, 0)].length) ∧
    ([((0 : ℚ), (0 : ℚ)), (1, 0)].length ≤ 2 →
      keyPressDrawing drawStateTwoPts DrawKey.enter false = drawStateTwoPts) :=
  polygon_enter_needs_three drawStateTwoPts [((0 : ℚ), (0 : ℚ)), (1, 0)]
    rfl rfl rfl

/-- Claim C7: when the oracle returns no annotations, or in `ai_polygon`
mode when the mask-to-polygon extraction yields fewer than two vertices,
`_update_shape_with_sam` leaves the prompt shape completely unmodified (its
kind, points, point labels and mask), and no exception propagates (the
result is `Except.ok`, never `Except.error`). -/
theorem sam_failure_keeps_shape (maskToBbox : Mask → Nat × Nat × Nat × Nat)
    (polygonFromMask : Mask → List (ℚ × ℚ)) (shape : SamShape)
    (cm : CreateMode)
    (hcm : cm = CreateMode.ai_polygon ∨ cm = CreateMode.ai_mask) :
    updateShapeWithSam [] maskToBbox polygonFromMask shape cm =
      Except.ok shape ∧
    (∀ ann rest, (polygonFromMask ann.mask).length < 2 →
      updateShapeWithSam (ann :: rest) maskToBbox polygonFromMask shape
        CreateMode.ai_polygon = Except.ok shape) := by
  constructor
  · rcases hcm with h | h <;> subst h <;> simp [updateShapeWithSam]
  · intro ann rest hlen
    simp [updateShapeWithSam, hlen]

/-- Claim C7 witness: concrete prompt shape, empty response, and a
one-vertex extraction, both leaving the shape untouched. -/
theorem sam_failure_keeps_shape_witness :
    updateShapeWithSam [] bboxEx degenerateExtractor promptShapeEx
      CreateMode.ai_polygon = Except.ok promptShapeEx ∧
    updateShapeWithSam [⟨[[true]], none⟩] bboxEx degenerateExtractor
      promptShapeEx CreateMode.ai_polygon = Except.ok promptShapeEx := by
  have h := sam_failure_keeps_shape bboxEx degenerateExtractor promptShapeEx
    CreateMode.ai_polygon (Or.inl rfl)
  exact ⟨h.1, h.2 ⟨[[true]], none⟩ [] (by decide)⟩

lemma lruGet_length_le {κ ε : Type} (eqk : κ → κ → Bool) (compute : κ → ε)
    (c : LruCache κ ε) (k : κ) (hlen : c.entries.length ≤ 3) :
    (lruGet eqk 3 compute c k).2.1.entries.length ≤ 3 := by
  unfold lruGet
  cases hf : c.entries.find? (fun p => eqk p.1 k) with
  | none =>
    simp only []
    exact List.length_take_le 3 ((k, compute k) :: c.entries)
  | some kv =>
    dsimp only
    have hmem := List.find?_some hf
    have hmem2 := List.mem_of_find?_eq_some hf
    have hlt :
        (c.entries.filter (fun p => !(eqk p.1 k))).length <
          c.entries.length := by
      apply List.length_filter_lt_length_iff_exists.mpr
      exact ⟨kv, hmem2, by simp [hmem]⟩
    simp only [List.length_cons]
    omega

/-- Claim C8: the embedding cache key is content based: two wrapped images
with byte-identical pixel content hash and compare equal regardless of the
wrapper identity; calling the embedding twice with the same model and
pixel-identical images (distinct wrappers) computes the embedding exactly
once, the second call being a cache hit that returns the first call's value;
the cache never holds more than 3 entries; and on a miss with a full cache
the least-recently-used (last) entry is evicted. -/
theorem embedding_cache_behaviour {ε : Type} (embed : String × PixWrap → ε)
    (modelName : String) (content : List Nat) (id1 id2 : Nat) :
    (pixHash ⟨id1, content⟩ = pixHash ⟨id2, content⟩ ∧
      pixEq ⟨id1, content⟩ ⟨id2, content⟩ = true) ∧
    ((computeImageEmbedding embed ⟨[]⟩ modelName ⟨id1, content⟩).2.2 = true ∧
     (computeImageEmbedding embed
        (computeImageEmbedding embed ⟨[]⟩ modelName ⟨id1, content⟩).2.1
        modelName ⟨id2, content⟩).2.2 = false ∧
     (computeImageEmbedding embed
        (computeImageEmbedding embed ⟨[]⟩ modelName ⟨id1, content⟩).2.1
        modelName ⟨id2, content⟩).1 = embed (modelName, ⟨id1, content⟩)) ∧
    (∀ (cache : LruCache (String × PixWrap) ε) (k : String × PixWrap),
      cache.entries.length ≤ 3 →
      (lruGet embedKeyEq 3 embed cache k).2.1.entries.length ≤ 3) ∧
    (∀ (cache : LruCache (String × PixWrap) ε) (k : String × PixWrap),
      cache.entries.length = 3 →
      cache.entries.find? (fun p => embedKeyEq p.1 k) = none →
      (lruGet embedKeyEq 3 embed cache k).2.1.entries =
        (k, embed k) :: cache.entries.take 2) := by
  refine ⟨⟨rfl, by simp [pixEq, pixHash]⟩, ?_, ?_, ?_⟩
  · simp [computeImageEmbedding, lruGet, embedKeyEq, pixEq, pixHash]
  · intro cache k h
    exact lruGet_length_le embedKeyEq embed cache k h
  · intro cache k hlen hfind
    simp [lruGet, hfind, List.take_succ_cons]

/-- Claim C8 witness: concrete model name, contents and wrapper identities;
the capacity bound applied to a concrete full cache. -/
theorem embedding_cache_behaviour_witness :
    pixEq ⟨1, [5, 6]⟩ ⟨2, [5, 6]⟩ = true ∧
    (computeImageEmbedding (fun _ => (7 : Nat)) ⟨[]⟩ "sam2:latest"
      ⟨1, [5, 6]⟩).2.2 = true ∧
    (computeImageEmbedding (fun _ => (7 : Nat))
      (computeImageEmbedding (fun _ => (7 : Nat)) ⟨[]⟩ "sam2:latest"
        ⟨1, [5, 6]⟩).2.1
      "sam2:latest" ⟨2, [5, 6]⟩).2.2 = false ∧
    (lruGet embedKeyEq 3 (fun _ => (7 : Nat))
      ⟨[(("m", ⟨0, [1]⟩), 5), (("m", ⟨0, [2]⟩), 6), (("m", ⟨0, [3]⟩), 7)]⟩
      ("m", ⟨9, [4]⟩)).2.1.entries.length ≤ 3 := by
  have h := @embedding_cache_behaviour Nat (fun _ => 7) "sam2:latest"
    [5, 6] 1 2
  exact ⟨h.1.2, h.2.1.1, h.2.1.2.1, h.2.2.1 _ _ (by decide)⟩

lemma param_intersection_on_edge (x1 y1 x2 y2 x3 y3 x4 y4 : ℚ)
    (hd : (y4 - y3) * (x2 - x1) - (x4 - x3) * (y2 - y1) ≠ 0) :
    x1 + (((x4 - x3) * (y1 - y3) - (y4 - y3) * (x1 - x3)) /
        ((y4 - y3) * (x2 - x1) - (x4 - x3) * (y2 - y1))) * (x2 - x1) =
      x3 + (((x2 - x1) * (y1 - y3) - (y2 - y1) * (x1 - x3)) /
        ((y4 - y3) * (x2 - x1) - (x4 - x3) * (y2 - y1))) * (x4 - x3) ∧
    y1 + (((x4 - x3) * (y1 - y3) - (y4 - y3) * (x1 - x3)) /
        ((y4 - y3) * (x2 - x1) - (x4 - x3) * (y2 - y1))) * (y2 - y1) =
      y3 + (((x2 - x1) * (y1 - y3) - (y2 - y1) * (x1 - x3)) /
        ((y4 - y3) * (x2 - x1) - (x4 - x3) * (y2 - y1))) * (y4 - y3) := by
  constructor <;> field_simp <;> ring

lemma edgeCandidateCore_some {p1 p2 e3 e4 : ℚ × ℚ} {i : Nat} {c : Cand}
    (hc : edgeCandidateCore p1 p2 e3 e4 i = some c) :
    c.i = i ∧ onSegment p1 p2 c.pt ∧ onSegment e3 e4 c.pt ∧
    (e4.2 - e3.2) * (p2.1 - p1.1) - (e4.1 - e3.1) * (p2.2 - p1.2) ≠ 0 := by
  unfold edgeCandidateCore at hc
  dsimp only at hc
  split_ifs at hc with hd hg
  have hceq := Option.some.inj hc
  subst hceq
  obtain ⟨hua0, hua1, hub0, hub1⟩ := hg
  refine ⟨rfl, ⟨_, hua0, hua1, rfl, rfl⟩, ⟨_, hub0, hub1, ?_, ?_⟩, hd⟩
  · exact (param_intersection_on_edge p1.1 p1.2 p2.1 p2.2 e3.1 e3.2 e4.1
      e4.2 hd).1
  · exact (param_intersection_on_edge p1.1 p1.2 p2.1 p2.2 e3.1 e3.2 e4.1
      e4.2 hd).2

lemma mem_intersectingEdges {p1 p2 : ℚ × ℚ} {pts : List (ℚ × ℚ)} {c : Cand}
    (hc : c ∈ intersectingEdges p1 p2 pts) :
    ∃ i, i < 4 ∧ edgeCandidate p1 p2 pts i = some c := by
  unfold intersectingEdges at hc
  rw [List.mem_filterMap] at hc
  obtain ⟨i, hi, hci⟩ := hc
  have hi4 : i = 0 ∨ i = 1 ∨ i = 2 ∨ i = 3 := by simpa using hi
  exact ⟨i, by omega, hci⟩

lemma candLt_iff (a b : Cand) :
    candLt a b = true ↔ a.d2 < b.d2 ∨ (a.d2 = b.d2 ∧ a.i < b.i) := by
  simp [candLt]

lemma d2_le_of_candLt {a b : Cand} (h : candLt a b = true) : a.d2 ≤ b.d2 := by
  rcases (candLt_iff a b).mp h with h1 | ⟨h1, -⟩
  · exact le_of_lt h1
  · exact le_of_eq h1

lemma d2_le_of_not_candLt {a b : Cand} (h : ¬ candLt a b = true) :
    b.d2 ≤ a.d2 := by
  rw [candLt_iff] at h
  push_neg at h
  exact h.1

lemma minCandAux_spec (acc : Cand) (l : List Cand) :
    (minCandAux acc l = acc ∨ minCandAux acc l ∈ l) ∧
    (minCandAux acc l).d2 ≤ acc.d2 ∧
    ∀ x ∈ l, (minCandAux acc l).d2 ≤ x.d2 := by
  induction l generalizing acc with
  | nil => exact ⟨Or.inl rfl, le_refl _, by simp⟩
  | cons x rest ih =>
    have hstep : minCandAux acc (x :: rest)
        = minCandAux (if candLt x acc then x else acc) rest := rfl
    by_cases hxa : candLt x acc = true
    · rw [hstep, if_pos hxa]
      obtain ⟨ihm, ihacc, ihall⟩ := ih x
      have hxd : x.d2 ≤ acc.d2 := d2_le_of_candLt hxa
      refine ⟨?_, le_trans ihacc hxd, ?_⟩
      · rcases ihm with h1 | h1
        · exact Or.inr (by rw [h1]; exact List.mem_cons_self x rest)
        · exact Or.inr (List.mem_cons_of_mem x h1)
      · intro y hy
        rcases List.mem_cons.mp hy with rfl | hy2
        · exact ihacc
        · exact ihall y hy2
    · rw [hstep, if_neg hxa]
      obtain ⟨ihm, ihacc, ihall⟩ := ih acc
      have haxd : acc.d2 ≤ x.d2 := d2_le_of_not_candLt hxa
      refine ⟨?_, ihacc, ?_⟩
      · rcases ihm with h1 | h1
        · exact Or.inl h1
        · exact Or.inr (List.mem_cons_of_mem x h1)
      · intro y hy
        rcases List.mem_cons.mp hy with rfl | hy2
        · exact le_trans ihacc haxd
        · exact ihall y hy2

lemma rectEdge0 (w h : ℚ) :
    rectEdge w h 0 = ((((0 : ℚ)), ((0 : ℚ))), (w - 1, 0)) := rfl

lemma rectEdge1 (w h : ℚ) :
    rectEdge w h 1 = ((w - 1, ((0 : ℚ))), (w - 1, h - 1)) := rfl

lemma rectEdge2 (w h : ℚ) :
    rectEdge w h 2 = ((w - 1, h - 1), (((0 : ℚ)), h - 1)) := rfl

lemma rectEdge3 (w h : ℚ) :
    rectEdge w h 3 = ((((0 : ℚ)), h - 1), (((0 : ℚ)), ((0 : ℚ)))) := rfl

lemma corner_fst (w h : ℚ) (i : Nat) :
    (rectCorners w h).getD i (((0 : ℚ)), ((0 : ℚ))) = (rectEdge w h i).1 := rfl

lemma corner_snd (w h : ℚ) (i : Nat) :
    (rectCorners w h).getD ((i + 1) % 4) (((0 : ℚ)), ((0 : ℚ)))
      = (rectEdge w h i).2 := rfl

lemma minCand_spec {l : List Cand} {m : Cand} (h : minCand l = some m) :
    m ∈ l ∧ ∀ x ∈ l, m.d2 ≤ x.d2 := by
  cases l with
  | nil => cases h
  | cons c rest =>
    have hm : minCandAux c rest = m := Option.some.inj h
    obtain ⟨hmem, hacc, hall⟩ := minCandAux_spec c rest
    rw [hm] at hmem hacc hall
    constructor
    · rcases hmem with h1 | h1
      · rw [h1]; exact List.mem_cons_self c rest
      · exact List.mem_cons_of_mem c h1
    · intro x hx
      rcases List.mem_cons.mp hx with rfl | hx2
      · exact hacc
      · exact hall x hx2

/-- Claim C9: for `p1` inside the image rectangle and `p2` outside, when at
least one edge yields a candidate (the source raises otherwise),
`intersectionPoint` selects a candidate lying on the segment `(p1, p2)` and
on its rectangle edge, minimizing the distance from `p2` to the edge
midpoint over all candidates; the result is that intersection, unless it
coincides exactly with `p1`, in which case the result snaps along the chosen
edge: the fixed coordinate is the edge's and the varying coordinate is
`p2`'s clamped into the edge's coordinate range.  Parallel or coincident
edges (zero denominator) contribute no candidate by construction of
`edgeCandidateCore`. -/
theorem intersection_point_spec (w h : ℚ) (p1 p2 : ℚ × ℚ)
    (hw : 1 ≤ w) (hh : 1 ≤ h) (hin : insideRect w h p1)
    (hout : outOfPixmap w h p2 = true)
    (hne : intersectingEdges p1 p2 (rectCorners w h) ≠ []) :
    ∃ c, minCand (intersectingEdges p1 p2 (rectCorners w h)) = some c ∧
      c ∈ intersectingEdges p1 p2 (rectCorners w h) ∧
      (∀ c2 ∈ intersectingEdges p1 p2 (rectCorners w h), c.d2 ≤ c2.d2) ∧
      onSegment p1 p2 c.pt ∧ onRectEdge w h c.i c.pt ∧
      (c.pt ≠ p1 → intersectionPoint w h p1 p2 = some c.pt) ∧
      (c.pt = p1 →
        intersectionPoint w h p1 p2 = some (snapResult w h c.i p2)) := by
  obtain ⟨c, hc⟩ :
      ∃ c, minCand (intersectingEdges p1 p2 (rectCorners w h)) = some c := by
    cases hl : intersectingEdges p1 p2 (rectCorners w h) with
    | nil => exact absurd hl hne
    | cons a rest => exact ⟨minCandAux a rest, rfl⟩
  obtain ⟨hmem, hmin⟩ := minCand_spec hc
  obtain ⟨i, hi4, hcand⟩ := mem_intersectingEdges hmem
  unfold edgeCandidate at hcand
  obtain ⟨hci, hseg, hedge, hdenom⟩ := edgeCandidateCore_some hcand
  have hq1 : ((min (max p1.1 0) (w - 1), min (max p1.2 0) (h - 1)) : ℚ × ℚ)
      = p1 := by
    obtain ⟨h1, h2, h3, h4⟩ := hin
    rw [Prod.ext_iff]
    exact ⟨by dsimp only; rw [max_eq_left h1, min_eq_left h2],
           by dsimp only; rw [max_eq_left h3, min_eq_left h4]⟩
  have hedge2 : onRectEdge w h c.i c.pt := by
    unfold onRectEdge rectEdge
    rw [hci]
    exact hedge
  refine ⟨c, hc, hmem, hmin, hseg, hedge2, ?_, ?_⟩
  · intro hnp
    unfold intersectionPoint
    rw [hq1]
    simp only [hc]
    rw [if_neg hnp]
  · intro hp
    unfold intersectionPoint
    rw [hq1]
    simp only [hc]
    rw [if_pos hp, hci]
    rw [corner_snd, corner_fst] at hdenom ⊢
    have h0w : (0 : ℚ) ≤ w - 1 := by linarith
    have h0h : (0 : ℚ) ≤ h - 1 := by linarith
    interval_cases i
    · rw [rectEdge0] at hdenom ⊢
      dsimp only at hdenom ⊢
      have hwne : ¬((0 : ℚ) = w - 1) := fun h0 => hdenom (by rw [← h0]; ring)
      simp only [snapResult, rectEdge0]
      rw [if_neg hwne, if_neg hwne, min_eq_left h0w]
    · rw [rectEdge1] at hdenom ⊢
      dsimp only at hdenom ⊢
      simp only [snapResult, rectEdge1]
      rw [if_pos trivial, if_pos trivial, min_eq_left h0h]
    · rw [rectEdge2] at hdenom ⊢
      dsimp only at hdenom ⊢
      have hwne : ¬(w - 1 = (0 : ℚ)) := fun h0 => hdenom (by rw [h0]; ring)
      simp only [snapResult, rectEdge2]
      rw [if_neg hwne, if_neg hwne, min_eq_right h0w]
    · rw [rectEdge3] at hdenom ⊢
      dsimp only at hdenom ⊢
      simp only [snapResult, rectEdge3]
      rw [if_pos trivial, if_pos trivial, min_eq_right h0h]

/-- Claim C9 witness: `p1 = (5,5)` inside the 10x10 image, `p2 = (15,5)`
outside; the single candidate is the right-edge crossing `(9, 5)`. -/
theorem intersection_point_spec_witness :
    insideRect 10 10 (5, 5) ∧
    outOfPixmap 10 10 (15, 5) = true ∧
    intersectingEdges (5, 5) (15, 5) (rectCorners 10 10) ≠ [] ∧
    ∃ c, minCand (intersectingEdges (5, 5) (15, 5) (rectCorners 10 10))
        = some c ∧
      c ∈ intersectingEdges (5, 5) (15, 5) (rectCorners 10 10) ∧
      (∀ c2 ∈ intersectingEdges (5, 5) (15, 5) (rectCorners 10 10),
        c.d2 ≤ c2.d2) ∧
      onSegment (5, 5) (15, 5) c.pt ∧ onRectEdge 10 10 c.i c.pt ∧
      (c.pt ≠ (5, 5) →
        intersectionPoint 10 10 (5, 5) (15, 5) = some c.pt) ∧
      (c.pt = (5, 5) →
        intersectionPoint 10 10 (5, 5) (15, 5)
          = some (snapResult 10 10 c.i (15, 5))) := by
  have hin : insideRect 10 10 ((5 : ℚ), (5 : ℚ)) := by norm_num [insideRect]
  have hout : outOfPixmap 10 10 ((15 : ℚ), (5 : ℚ)) = true := by
    norm_num [outOfPixmap]
  have hne : intersectingEdges (5, 5) (15, 5) (rectCorners 10 10) ≠ [] := by
    norm_num [intersectingEdges, edgeCandidate, edgeCandidateCore,
      rectCorners]
    intro hx
    exact Option.noConfusion hx
  exact ⟨hin, hout, hne,
    intersection_point_spec 10 10 (5, 5) (15, 5) (by norm_num) (by norm_num)
      hin hout hne⟩

end Labelme
